import Mathlib

/-!
Shallow embedding of the order lifecycle and payment reconciliation engine of
the zayrel storefront backend (a NestJS/Mongoose application).

The definitions below translate, method by method, the relevant parts of
`src/orders/orders.service.ts` (create, cancelOrder, updateStatus,
updatePaymentProof) and `src/payments/payment.service.ts` (initiatePayment,
handleWebhook, handlePayPalWebhook), together with the Mongoose schemas from
`src/database/schemas.ts`.

Modelling conventions:
* Mongo ObjectIds are `Nat`; collections are association lists keyed by id.
* JavaScript `a || b` fallbacks on optional strings are modelled with `jsOr`
  over `Option`; the empty string and `undefined` are both falsy in the
  source, so a falsy value is represented as `none` (`optNonEmpty` converts).
* External collaborators keep only their observable behaviour: the proof
  storage service is an abstract function `store`, gateway signature checks
  are an abstract predicate `verify`, and a gateway checkout response is an
  abstract function `gwRespond`.  Outbound notifications are recorded as a
  list of `Event`s instead of being delivered.
* Webhook payloads carry the fields the service extracts from the raw JSON
  (e.g. `orderId` stands for `data.metadata.orderId ?? data.object.metadata.orderId`
  in the Onvopay branch and `resource.purchase_units[0].reference_id` in the
  PayPal branch; `dataId` stands for `data.id` resp. `resource.id`).
* Thrown `HttpException`s become `Except OrderError`; operations return the
  store state alongside the result so that "no write happened before the
  throw" is visible in the model.
-/

set_option maxHeartbeats 1000000

namespace Zayrel

/-- JavaScript-style fallback `a || b` on optional values (absent values and
the empty string are falsy in the source; both are modelled as `none`). -/
def jsOr {α : Type} (a b : Option α) : Option α :=
  match a with
  | some x => some x
  | none => b

/-- Convert a string that may be empty (hence falsy in the source) into an
optional value. -/
def optNonEmpty (s : String) : Option String :=
  if s = "" then none else some s

/-- Order status enum from the `Order` schema in `src/database/schemas.ts`. -/
inductive Status
  | esperando_pago
  | pagada
  | en_produccion
  | enviada
  | completada
  | cancelada
  | archivada
deriving DecidableEq

/-- Payment proof review status enum from the `PaymentProof` schema. -/
inductive ReviewStatus
  | pending
  | verified
  | rejected
deriving DecidableEq

/-- The `PaymentProof` sub-document of an order.  Every write path of the
service sets `status` explicitly (and the schema default is `pending`), so it
is total; the other fields may be absent. -/
structure PaymentProof where
  url : Option String
  method : Option String
  reference : Option String
  status : ReviewStatus
  reason : Option String
deriving DecidableEq

/-- The `Order` document: registered owner (optional), status, optional
payment proof and shipping metadata. -/
structure Order where
  user : Option Nat
  status : Status
  paymentProof : Option PaymentProof
  trackingNumber : Option String
  shippingProvider : Option String
deriving DecidableEq

/-- The slice of a `Variant` document this engine touches: its stock counter
and the catalog price of its product (`none` when the populated product is
missing or its price is not a number). -/
structure Variant where
  stock : Int
  price : Option Int
deriving DecidableEq

/-- An `OrderItem` document. -/
structure OrderItemRec where
  orderId : Nat
  variantId : Nat
  quantity : Int
  unitPrice : Int
deriving DecidableEq

/-- The mutable store state: the four collections the engine reads and
writes.  `users` maps a user id to their `vtoTokens` balance. -/
structure OrdersState where
  variants : List (Nat × Variant)
  orders : List (Nat × Order)
  orderItems : List OrderItemRec
  users : List (Nat × Int)
deriving DecidableEq

/-- `findById`: first entry of the association list with the given key. -/
def getA {α : Type} : List (Nat × α) → Nat → Option α
  | [], _ => none
  | (k, v) :: rest, j => if k = j then some v else getA rest j

/-- `document.save()` on a fetched document: replace the entry in place. -/
def setA {α : Type} : List (Nat × α) → Nat → α → List (Nat × α)
  | [], _, _ => []
  | (k, w) :: rest, j, v =>
    if k = j then (j, v) :: setA rest j v else (k, w) :: setA rest j v

/-- `variantModel.updateOne({_id: j}, {$inc: {stock: q}})`: a no-op when the
variant does not exist, an atomic increment otherwise. -/
def incStock : List (Nat × Variant) → Nat → Int → List (Nat × Variant)
  | [], _, _ => []
  | (k, w) :: rest, j, q =>
    if k = j then (k, { w with stock := w.stock + q }) :: incStock rest j q
    else (k, w) :: incStock rest j q

/-- `userModel.findByIdAndUpdate(j, {$inc: {vtoTokens: q}})`. -/
def bumpTokens : List (Nat × Int) → Nat → Int → List (Nat × Int)
  | [], _, _ => []
  | (k, w) :: rest, j, q =>
    if k = j then (k, w + q) :: bumpTokens rest j q
    else (k, w) :: bumpTokens rest j q

/-- Outbound notification events dispatched by the engine
(`NotificationsService.notify*`). -/
inductive Event
  | orderCreated (orderId : Nat)
  | proofReceived (orderId : Nat)
  | paymentApproved (orderId : Nat)
  | paymentRejected (orderId : Nat)
  | orderInProduction (orderId : Nat)
  | orderShipped (orderId : Nat)
  | orderCompleted (orderId : Nat)
deriving DecidableEq

/-- The `HttpException`s thrown by the embedded methods. -/
inductive OrderError
  | orderNotFound
  | variantNotFound (variantId : Nat)
  | insufficientStock (variantId : Nat)
  | priceNotFound (variantId : Nat)
  | alreadyCancelled
  | alreadyPaid
  | methodNotSupported (method : String)
deriving DecidableEq

instance {ε α : Type} [DecidableEq ε] [DecidableEq α] : DecidableEq (Except ε α) := by
  intro a b
  cases a <;> cases b
  case error.error e e' =>
    exact if h : e = e' then .isTrue (by rw [h]) else .isFalse (by simp [h])
  case error.ok e x => exact .isFalse (by simp)
  case ok.error x e => exact .isFalse (by simp)
  case ok.ok x y =>
    exact if h : x = y then .isTrue (by rw [h]) else .isFalse (by simp [h])

/-- Result of one service method call: the value returned or the exception
thrown, the store state when the call finished, and the notification events
it dispatched. -/
structure OpResult (α : Type) where
  res : Except OrderError α
  state : OrdersState
  events : List Event
deriving DecidableEq

/-- One line of a `CreateOrderDto` (`items` entry: variant id and quantity;
the client-supplied `unitPrice` is ignored by the service). -/
structure CreateItem where
  variantId : Nat
  quantity : Int
deriving DecidableEq

/-- One element of the `orderItemsData` array built by the validation loop of
`OrdersService.create`: the requested line plus the server-side price. -/
structure ItemData where
  variantId : Nat
  quantity : Int
  unitPrice : Int
deriving DecidableEq

/-- `orderType` enum of the `Order` schema. -/
inductive OrderType
  | online
  | manual_sale
deriving DecidableEq

/-- The stock/price validation loop at the top of `OrdersService.create`:
for each requested item, look the variant up (404 if missing), fail if
`variant.stock < item.quantity`, fail if the populated product has no numeric
price; otherwise capture the server-side price.  The first failing item
determines the exception, and no write happens during validation. -/
def validateItems (variants : List (Nat × Variant)) : List CreateItem → Except OrderError (List ItemData)
  | [] => .ok []
  | it :: rest =>
    match getA variants it.variantId with
    | none => .error (.variantNotFound it.variantId)
    | some v =>
      if v.stock < it.quantity then .error (.insufficientStock it.variantId)
      else
        match v.price with
        | none => .error (.priceNotFound it.variantId)
        | some p =>
          match validateItems variants rest with
          | .error e => .error e
          | .ok l => .ok ({ variantId := it.variantId, quantity := it.quantity, unitPrice := p } :: l)

/-- The order document `OrdersService.create` persists: status `pagada` for
a manual sale, `esperando_pago` otherwise; no proof, no tracking yet. -/
def newOrderDoc (user : Option Nat) (orderType : OrderType) : Order :=
  { user := user
    status := if orderType = OrderType.manual_sale then Status.pagada else Status.esperando_pago
    paymentProof := none
    trackingNumber := none
    shippingProvider := none }

/-- The order item document created for one validated line. -/
def itemRec (newId : Nat) (d : ItemData) : OrderItemRec :=
  { orderId := newId, variantId := d.variantId, quantity := d.quantity, unitPrice := d.unitPrice }

/-- `OrdersService.create`: validate all items, persist the order, then
create one order item per line and debit the variant's stock (one loop
iteration per line, in request order), and finally dispatch the
order-created notification.  `user` is the authenticated user's id (the
service ignores the `user` field of the DTO); `newId` is the ObjectId Mongo
assigns to the new order. -/
def create (s : OrdersState) (newId : Nat) (items : List CreateItem)
    (user : Option Nat) (orderType : OrderType) : OpResult Nat :=
  match validateItems s.variants items with
  | .error e => { res := .error e, state := s, events := [] }
  | .ok itemsData =>
    let s1 : OrdersState := { s with orders := s.orders ++ [(newId, newOrderDoc user orderType)] }
    let s2 : OrdersState := itemsData.foldl (fun st d =>
      { st with
        orderItems := st.orderItems ++ [itemRec newId d]
        variants := incStock st.variants d.variantId (-d.quantity) }) s1
    { res := .ok newId, state := s2, events := [Event.orderCreated newId] }

/-- `OrdersService.cancelOrder`: 404 when the order is missing, 400 when it
is already cancelled; otherwise credit each order item's quantity back to its
variant and set the status to `cancelada`. -/
def cancelOrder (s : OrdersState) (id : Nat) : OpResult Unit :=
  match getA s.orders id with
  | none => { res := .error .orderNotFound, state := s, events := [] }
  | some o =>
    if o.status = Status.cancelada then
      { res := .error .alreadyCancelled, state := s, events := [] }
    else
      let items := s.orderItems.filter (fun it => it.orderId = id)
      let variants1 := items.foldl (fun vs it => incStock vs it.variantId it.quantity) s.variants
      { res := .ok ()
        state := { s with
          variants := variants1
          orders := setA s.orders id { o with status := Status.cancelada } }
        events := [] }

/-- The `paidStatuses` array of `OrdersService.updateStatus`. -/
def paidStatuses : List Status :=
  [Status.pagada, Status.en_produccion, Status.enviada, Status.completada]

/-- `OrdersService.updateStatus`: overwrite the status with the requested
one (no transition validation), auto-promote a still-`pending` payment proof
to `verified` when the new status is in `paidStatuses`, save; then, only when
the status actually changed, dispatch the per-status notification and, on
`completada`, grant 5 `vtoTokens` to the registered owner if there is one. -/
def updateStatus (s : OrdersState) (id : Nat) (status : Status) : OpResult Unit :=
  match getA s.orders id with
  | none => { res := .error .orderNotFound, state := s, events := [] }
  | some o =>
    let previousStatus := o.status
    let o1 : Order := { o with status := status }
    let o2 : Order :=
      if status ∈ paidStatuses ∧ o1.paymentProof.map PaymentProof.status = some ReviewStatus.pending then
        { o1 with paymentProof := o1.paymentProof.map (fun p => { p with status := ReviewStatus.verified }) }
      else o1
    let s1 : OrdersState := { s with orders := setA s.orders id o2 }
    if status = previousStatus then
      { res := .ok (), state := s1, events := [] }
    else
      let events :=
        if status = Status.en_produccion then [Event.orderInProduction id]
        else if status = Status.enviada then [Event.orderShipped id]
        else if status = Status.completada then [Event.orderCompleted id]
        else []
      let s2 : OrdersState :=
        if status = Status.completada then
          match o.user with
          | some uid => { s1 with users := bumpTokens s1.users uid 5 }
          | none => s1
        else s1
      { res := .ok (), state := s2, events := events }

/-- An `UpdatePaymentProofDto` as the service receives it (all fields
optional; `url` carries the base64 image when a new proof is uploaded). -/
structure ProofDto where
  url : Option String
  type : Option String
  reference : Option String
  status : Option ReviewStatus
  reason : Option String
deriving DecidableEq

/-- The effective merge of `OrdersService.updatePaymentProof` (the
"simplified assignment block" that overwrites the earlier duplicated
assignments): keep each stored field unless the DTO supplies it, default the
review status to `pending`, and compute the reason as
`proofDto.reason || (proofDto.status === 'verified' ? undefined : currentProof.reason)`.
`store` is the proof storage collaborator (`storageService.store`). -/
def mergeProof (store : String → Nat → String) (id : Nat)
    (cur : Option PaymentProof) (dto : ProofDto) : PaymentProof :=
  let storedUrl : Option String :=
    match dto.url with
    | some u => some (store u id)
    | none => cur.bind PaymentProof.url
  { url := storedUrl
    method := jsOr dto.type (cur.bind PaymentProof.method)
    reference := jsOr dto.reference (cur.bind PaymentProof.reference)
    status := (jsOr dto.status (cur.map PaymentProof.status)).getD ReviewStatus.pending
    reason := jsOr dto.reason
      (if dto.status = some ReviewStatus.verified then none else cur.bind PaymentProof.reason) }

/-- `OrdersService.updatePaymentProof`: 404 when the order is missing;
otherwise merge the DTO over the stored proof, dispatch `proofReceived` when
this call uploads a new image without simultaneously deciding the review,
advance `esperando_pago` to `pagada` when the DTO verifies the proof (never
regressing a further-advanced order), and dispatch `paymentApproved` resp.
`paymentRejected` whenever the DTO carries that decision. -/
def updatePaymentProof (store : String → Nat → String) (s : OrdersState)
    (id : Nat) (dto : ProofDto) : OpResult Unit :=
  match getA s.orders id with
  | none => { res := .error .orderNotFound, state := s, events := [] }
  | some o =>
    let newProof := mergeProof store id o.paymentProof dto
    let isAdminStatusChange :=
      dto.status = some ReviewStatus.verified ∨ dto.status = some ReviewStatus.rejected
    let receivedEvents :=
      if dto.url.isSome = true ∧ ¬ isAdminStatusChange then [Event.proofReceived id] else []
    let newStatus :=
      if dto.status = some ReviewStatus.verified ∧ o.status = Status.esperando_pago then
        Status.pagada
      else o.status
    let approvedEvents :=
      if dto.status = some ReviewStatus.verified then [Event.paymentApproved id] else []
    let rejectedEvents :=
      if dto.status = some ReviewStatus.rejected then [Event.paymentRejected id] else []
    let o1 : Order := { o with paymentProof := some newProof, status := newStatus }
    { res := .ok ()
      state := { s with orders := setA s.orders id o1 }
      events := receivedEvents ++ approvedEvents ++ rejectedEvents }

/-- A gateway checkout response (`PaymentResponse` of
`payment-gateway.interface.ts`, restricted to the fields the engine uses). -/
structure PaymentResponse where
  success : Bool
  redirectUrl : Option String
deriving DecidableEq

/-- Observable external effect of `PaymentService.initiatePayment`: one
delegation to a gateway's `initiatePayment` with the computed amounts. -/
inductive PayEffect
  | gatewayCall (method : String) (subtotal : Int) (shippingCost : Int) (orderId : Nat)
deriving DecidableEq

/-- The keys of the `strategies` record of `PaymentService`. -/
def knownGateways : List String := ["onvopay", "paypal"]

/-- `PaymentService.initiatePayment`: look the order up (404 when missing),
throw 409 when its status is already paid-or-later, reject unknown methods,
short-circuit `manual` to the proof-upload page; otherwise compute the
subtotal from the order's items server-side, apply the shipping rule (free
from 40000 up, flat 2500 below) and delegate to the gateway.  The method
performs no store write; the effect list records the gateway call. -/
def initiatePayment (gwRespond : String → Int → Int → PaymentResponse)
    (s : OrdersState) (orderId : Nat) (method : String) :
    Except OrderError PaymentResponse × List PayEffect :=
  match getA s.orders orderId with
  | none => (.error .orderNotFound, [])
  | some o =>
    if o.status = Status.pagada ∨ o.status = Status.en_produccion ∨
        o.status = Status.enviada ∨ o.status = Status.completada then
      (.error .alreadyPaid, [])
    else if ¬ method ∈ knownGateways ∧ method ≠ "manual" then
      (.error (.methodNotSupported method), [])
    else if method = "manual" then
      (.ok { success := true, redirectUrl := some "/store/my-orders" }, [])
    else
      let items := s.orderItems.filter (fun it => it.orderId = orderId)
      let subtotal : Int := items.foldl (fun acc it => acc + it.unitPrice * it.quantity) 0
      let shippingCost : Int := if subtotal ≥ 40000 then 0 else 2500
      (.ok (gwRespond method subtotal shippingCost), [PayEffect.gatewayCall method subtotal shippingCost orderId])

/-- A webhook payload, carrying the fields the service extracts from the raw
JSON (see the module docstring for the correspondence). -/
structure WebhookPayload where
  eventType : Option String
  orderId : Option Nat
  dataStatus : Option String
  paymentStatus : Option String
  paymentIntentId : Option String
  dataId : Option String
  errorMessage : Option String
  denialReason : Option String
deriving DecidableEq

/-- The acknowledgment a webhook delivery receives, together with the store
state and the notifications dispatched while handling it.  `received` is the
`received` field of the JSON acknowledgment; internal processing errors are
caught and still acknowledged (`received: true`). -/
structure WebhookResult where
  received : Bool
  state : OrdersState
  events : List Event
deriving DecidableEq

/-- The success classification of the Onvopay branch of
`PaymentService.handleWebhook`. -/
def onvoIsSuccess (p : WebhookPayload) : Prop :=
  p.eventType = some "checkout-session.succeeded" ∨
  p.eventType = some "payment-intent.succeeded" ∨
  p.eventType = some "payment_intent.succeeded" ∨
  p.dataStatus = some "succeeded" ∨
  p.paymentStatus = some "paid"

instance (p : WebhookPayload) : Decidable (onvoIsSuccess p) := by
  unfold onvoIsSuccess; infer_instance

/-- The failure classification of the Onvopay branch. -/
def onvoIsFailed (p : WebhookPayload) : Prop :=
  p.eventType = some "payment-intent.failed" ∨
  p.eventType = some "payment_intent.failed" ∨
  p.dataStatus = some "failed" ∨
  p.dataStatus = some "requires_payment_method"

instance (p : WebhookPayload) : Decidable (onvoIsFailed p) := by
  unfold onvoIsFailed; infer_instance

/-- `data?.paymentIntentId || data?.id || ''` — the Onvopay reference id
extracted on the success and deferred paths. -/
def onvoSuccessId (p : WebhookPayload) : String :=
  (jsOr p.paymentIntentId p.dataId).getD ""

/-- The Onvopay event processing of `PaymentService.handleWebhook` (after
gateway lookup and signature verification): classify the event and apply the
corresponding order mutation; exceptions are caught and acknowledged. -/
def handleOnvopayEvents (store : String → Nat → String) (s : OrdersState)
    (p : WebhookPayload) : WebhookResult :=
  match p.orderId with
  | none => { received := true, state := s, events := [] }
  | some oid =>
    if onvoIsSuccess p then
      let onvopayId := onvoSuccessId p
      let r1 := updateStatus s oid Status.pagada
      match r1.res with
      | .error _ => { received := true, state := r1.state, events := r1.events }
      | .ok _ =>
        if onvopayId ≠ "" then
          let r2 := updatePaymentProof store r1.state oid
            { url := none, type := some "onvopay", reference := some onvopayId
              status := some ReviewStatus.verified, reason := none }
          { received := true, state := r2.state, events := r1.events ++ r2.events }
        else
          { received := true, state := r1.state, events := r1.events }
    else if onvoIsFailed p then
      let errorMessage := p.errorMessage.getD "Payment failed"
      let onvopayId := p.dataId.getD ""
      let r := updatePaymentProof store s oid
        { url := none, type := some "onvopay", reference := optNonEmpty onvopayId
          status := some ReviewStatus.rejected, reason := some errorMessage }
      { received := true, state := r.state, events := r.events }
    else if p.eventType = some "payment-intent.deferred" then
      let onvopayId := onvoSuccessId p
      let r := updatePaymentProof store s oid
        { url := none, type := some "onvopay", reference := optNonEmpty onvopayId
          status := some ReviewStatus.pending, reason := some "SINPE pendiente de aprobacion" }
      { received := true, state := r.state, events := r.events }
    else
      { received := true, state := s, events := [] }

/-- `PaymentService.handlePayPalWebhook`: approved orders are acknowledged
without mutation; a completed capture marks the order paid and records the
capture id as a verified proof; a denied capture records a rejected proof
with the gateway's reason.  Exceptions are caught and acknowledged. -/
def handlePayPalWebhook (store : String → Nat → String) (s : OrdersState)
    (p : WebhookPayload) : WebhookResult :=
  match p.orderId with
  | none => { received := true, state := s, events := [] }
  | some oid =>
    if p.eventType = some "CHECKOUT.ORDER.APPROVED" then
      { received := true, state := s, events := [] }
    else if p.eventType = some "PAYMENT.CAPTURE.COMPLETED" then
      let r1 := updateStatus s oid Status.pagada
      match r1.res with
      | .error _ => { received := true, state := r1.state, events := r1.events }
      | .ok _ =>
        let r2 := updatePaymentProof store r1.state oid
          { url := none, type := some "paypal", reference := jsOr p.dataId p.dataId
            status := some ReviewStatus.verified, reason := none }
        { received := true, state := r2.state, events := r1.events ++ r2.events }
    else if p.eventType = some "PAYMENT.CAPTURE.DENIED" then
      let reason := p.denialReason.getD "Payment capture denied"
      let r := updatePaymentProof store s oid
        { url := none, type := some "paypal", reference := p.dataId
          status := some ReviewStatus.rejected, reason := some reason }
      { received := true, state := r.state, events := r.events }
    else
      { received := true, state := s, events := [] }

/-- `PaymentService.handleWebhook`: discard with `received: false` when the
gateway name is not a key of `strategies` or when the strategy's
`verifyWebhook` rejects the signature; otherwise dispatch to the PayPal or
Onvopay event processing.  `verify` abstracts the strategies'
`verifyWebhook(payload, signature)`. -/
def handleWebhook (verify : String → WebhookPayload → String → Bool)
    (store : String → Nat → String) (s : OrdersState)
    (gateway : String) (p : WebhookPayload) (signature : String) : WebhookResult :=
  if ¬ gateway ∈ knownGateways then
    { received := false, state := s, events := [] }
  else if verify gateway p signature = false then
    { received := false, state := s, events := [] }
  else if gateway = "paypal" then
    handlePayPalWebhook store s p
  else
    handleOnvopayEvents store s p

/-! ### Association list lemmas -/

theorem getA_setA_self {α : Type} {m : List (Nat × α)} {j : Nat} {o : α}
    (h : getA m j = some o) (v : α) : getA (setA m j v) j = some v := by
  induction m with
  | nil => simp [getA] at h
  | cons p rest ih =>
    obtain ⟨k, w⟩ := p
    by_cases hk : k = j
    · simp [getA, setA, hk]
    · simp [getA, hk] at h
      simp [getA, setA, hk, ih h]

theorem setA_setA {α : Type} (m : List (Nat × α)) (j : Nat) (v v' : α) :
    setA (setA m j v) j v' = setA m j v' := by
  induction m with
  | nil => rfl
  | cons p rest ih =>
    obtain ⟨k, w⟩ := p
    by_cases hk : k = j <;> simp [setA, hk] at ih ⊢ <;> simpa [setA] using ih

theorem getA_append_left {α : Type} {m m' : List (Nat × α)} {j : Nat}
    (h : getA m j = none) : getA (m ++ m') j = getA m' j := by
  induction m with
  | nil => rfl
  | cons p rest ih =>
    obtain ⟨k, w⟩ := p
    by_cases hk : k = j
    · simp [getA, hk] at h
    · simp [getA, hk] at h ⊢
      exact ih h

theorem getA_incStock_eq (vs : List (Nat × Variant)) (j : Nat) (q : Int) :
    getA (incStock vs j q) j = (getA vs j).map (fun v => { v with stock := v.stock + q }) := by
  induction vs with
  | nil => rfl
  | cons p rest ih =>
    obtain ⟨k, w⟩ := p
    by_cases hk : k = j
    · simp [incStock, getA, hk]
    · simp [incStock, getA, hk, ih]

theorem getA_incStock_ne (vs : List (Nat × Variant)) {j j' : Nat} (h : j' ≠ j) (q : Int) :
    getA (incStock vs j q) j' = getA vs j' := by
  induction vs with
  | nil => rfl
  | cons p rest ih =>
    obtain ⟨k, w⟩ := p
    by_cases hk : k = j
    · have hkj' : ¬ k = j' := fun hh => h (hh.symm.trans hk)
      simp [incStock, getA, hk, hkj', h, h.symm, ih]
    · by_cases hk' : k = j' <;> simp [incStock, getA, hk, hk', h, h.symm, ih]

/-- The total amount contributed to key `j` by a list of ledger entries. -/
def sumAmt {α : Type} (key : α → Nat) (amt : α → Int) (j : Nat) : List α → Int
  | [] => 0
  | d :: l => (if key d = j then amt d else 0) + sumAmt key amt j l

theorem getA_foldl_incStock {α : Type} (key : α → Nat) (amt : α → Int)
    (l : List α) (vs : List (Nat × Variant)) (j : Nat) :
    getA (l.foldl (fun a d => incStock a (key d) (amt d)) vs) j =
      (getA vs j).map (fun v => { v with stock := v.stock + sumAmt key amt j l }) := by
  induction l generalizing vs with
  | nil =>
    cases h : getA vs j <;> simp [sumAmt, h]
  | cons d l ih =>
    rw [List.foldl_cons, ih]
    by_cases h : key d = j
    · subst h
      rw [getA_incStock_eq]
      cases getA vs (key d) <;> simp [sumAmt, Option.map_map, add_assoc]
    · rw [getA_incStock_ne _ (fun hh => h hh.symm)]
      simp [sumAmt, h]

theorem sumAmt_nonneg {α : Type} (key : α → Nat) (amt : α → Int) (j : Nat)
    (l : List α) (h : ∀ d ∈ l, 0 ≤ amt d) : 0 ≤ sumAmt key amt j l := by
  induction l with
  | nil => simp [sumAmt]
  | cons d l ih =>
    have hd := h d (by simp)
    have hl := ih (fun d hd => h d (by simp [hd]))
    by_cases hk : key d = j <;> simp [sumAmt, hk] <;> omega

theorem sumAmt_eq_zero {α : Type} (key : α → Nat) (amt : α → Int) (j : Nat)
    (l : List α) (h : ∀ d ∈ l, key d ≠ j) : sumAmt key amt j l = 0 := by
  induction l with
  | nil => rfl
  | cons d l ih =>
    have hd := h d (by simp)
    have hl := ih (fun d hd => h d (by simp [hd]))
    simp [sumAmt, hd, hl]

theorem sumAmt_le_of_nodup {α : Type} (key : α → Nat) (amt : α → Int) (j : Nat)
    (l : List α) (B : Int)
    (hnd : (l.map key).Nodup)
    (hB : 0 ≤ B)
    (hle : ∀ d ∈ l, key d = j → amt d ≤ B)
    (hnn : ∀ d ∈ l, 0 ≤ amt d) :
    sumAmt key amt j l ≤ B := by
  induction l with
  | nil => simpa [sumAmt]
  | cons d l ih =>
    simp only [List.map_cons, List.nodup_cons] at hnd
    by_cases hk : key d = j
    · have hrest : sumAmt key amt j l = 0 := by
        refine sumAmt_eq_zero key amt j l (fun d' hd' hkey => hnd.1 ?_)
        rw [hk, ← hkey]
        exact List.mem_map_of_mem key hd'
      have := hle d (by simp) hk
      simp [sumAmt, hk, hrest]
      omega
    · have := ih hnd.2 (fun d' h' hk' => hle d' (by simp [h']) hk') (fun d' h' => hnn d' (by simp [h']))
      simp [sumAmt, hk]
      omega

theorem sumAmt_map {α β : Type} (key : β → Nat) (amt : β → Int) (f : α → β)
    (j : Nat) (l : List α) :
    sumAmt key amt j (l.map f) = sumAmt (fun d => key (f d)) (fun d => amt (f d)) j l := by
  induction l with
  | nil => rfl
  | cons d l ih => simp [sumAmt, ih]

theorem getA_bumpTokens_eq (us : List (Nat × Int)) (j : Nat) (q : Int) :
    getA (bumpTokens us j q) j = (getA us j).map (fun t => t + q) := by
  induction us with
  | nil => rfl
  | cons p rest ih =>
    obtain ⟨k, w⟩ := p
    by_cases hk : k = j
    · simp [bumpTokens, getA, hk]
    · simp [bumpTokens, getA, hk, ih]

/-! ### Characterizations of the service methods on a found order -/

/-- The order written back by `updateStatus`: requested status, with a
still-`pending` proof promoted to `verified` when the new status is
paid-or-later. -/
def statusSyncedOrder (o : Order) (st : Status) : Order :=
  if st ∈ paidStatuses ∧ o.paymentProof.map PaymentProof.status = some ReviewStatus.pending then
    { o with status := st
             paymentProof := o.paymentProof.map (fun p => { p with status := ReviewStatus.verified }) }
  else { o with status := st }

/-- The per-status notification dispatched by `updateStatus` on a genuine
status change. -/
def statusEvents (id : Nat) (st : Status) : List Event :=
  if st = Status.en_produccion then [Event.orderInProduction id]
  else if st = Status.enviada then [Event.orderShipped id]
  else if st = Status.completada then [Event.orderCompleted id]
  else []

theorem updateStatus_found {s : OrdersState} {id : Nat} {o : Order} (st : Status)
    (ho : getA s.orders id = some o) :
    updateStatus s id st =
      { res := .ok ()
        state :=
          { s with
            orders := setA s.orders id (statusSyncedOrder o st)
            users :=
              if st = o.status then s.users
              else if st = Status.completada then
                match o.user with
                | some uid => bumpTokens s.users uid 5
                | none => s.users
              else s.users }
        events := if st = o.status then [] else statusEvents id st } := by
  unfold updateStatus
  rw [ho]
  by_cases hprev : st = o.status
  · simp only [hprev, if_pos rfl]
    simp [statusSyncedOrder]
  · simp only [if_neg hprev]
    by_cases hc : st = Status.completada
    · cases hu : o.user <;> simp [hprev, hc, hu, statusSyncedOrder, statusEvents]
    · simp [hprev, hc, statusSyncedOrder, statusEvents]

/-- The order written back by `updatePaymentProof`: merged proof, and the
guarded `esperando_pago → pagada` advance when the DTO verifies the proof. -/
def proofMergedOrder (store : String → Nat → String) (id : Nat) (o : Order) (dto : ProofDto) : Order :=
  { o with
    paymentProof := some (mergeProof store id o.paymentProof dto)
    status :=
      if dto.status = some ReviewStatus.verified ∧ o.status = Status.esperando_pago then
        Status.pagada
      else o.status }

/-- The notifications dispatched by one `updatePaymentProof` call. -/
def proofEvents (id : Nat) (dto : ProofDto) : List Event :=
  (if dto.url.isSome = true ∧
      ¬ (dto.status = some ReviewStatus.verified ∨ dto.status = some ReviewStatus.rejected)
    then [Event.proofReceived id] else []) ++
  (if dto.status = some ReviewStatus.verified then [Event.paymentApproved id] else []) ++
  (if dto.status = some ReviewStatus.rejected then [Event.paymentRejected id] else [])

theorem updatePaymentProof_found (store : String → Nat → String)
    {s : OrdersState} {id : Nat} {o : Order} (dto : ProofDto)
    (ho : getA s.orders id = some o) :
    updatePaymentProof store s id dto =
      { res := .ok ()
        state := { s with orders := setA s.orders id (proofMergedOrder store id o dto) }
        events := proofEvents id dto } := by
  unfold updatePaymentProof
  rw [ho]
  rfl

theorem statusSyncedOrder_status (o : Order) (st : Status) :
    (statusSyncedOrder o st).status = st := by
  unfold statusSyncedOrder
  split <;> rfl

theorem statusSyncedOrder_user (o : Order) (st : Status) :
    (statusSyncedOrder o st).user = o.user := by
  unfold statusSyncedOrder
  split <;> rfl

/-! ### Claim C6 -/

/-- Claim C6: for every order whose status is in the paid-or-later set
{pagada, en_produccion, enviada, completada}, `initiatePayment` fails with
the distinguishable already-paid conflict error — for every payment method
including `manual` — performing no gateway call (empty effect list) and, the
method making no store write, leaving the order state unchanged; and
`initiatePayment` on a non-existent order fails with the not-found error. -/
theorem C6_initiatePayment_already_paid_guard :
    (∀ (gwRespond : String → Int → Int → PaymentResponse) (s : OrdersState)
        (oid : Nat) (o : Order) (method : String),
      getA s.orders oid = some o → o.status ∈ paidStatuses →
      initiatePayment gwRespond s oid method = (.error .alreadyPaid, [])) ∧
    (∀ (gwRespond : String → Int → Int → PaymentResponse) (s : OrdersState)
        (oid : Nat) (method : String),
      getA s.orders oid = none →
      initiatePayment gwRespond s oid method = (.error .orderNotFound, [])) := by
  constructor
  · intro gwRespond s oid o method ho hst
    have hd : o.status = Status.pagada ∨ o.status = Status.en_produccion ∨
        o.status = Status.enviada ∨ o.status = Status.completada := by
      simpa [paidStatuses] using hst
    unfold initiatePayment
    rw [ho]
    simp only [if_pos hd]
  · intro gwRespond s oid method ho
    unfold initiatePayment
    rw [ho]

/-- A paid order and a one-order state used to instantiate C6. -/
def orderPaidC6 : Order :=
  { user := none, status := Status.pagada, paymentProof := none
    trackingNumber := none, shippingProvider := none }

def stateC6 : OrdersState :=
  { variants := [], orders := [(1, orderPaidC6)], orderItems := [], users := [] }

theorem C6_initiatePayment_already_paid_guard_witness :
    initiatePayment (fun _ _ _ => { success := true, redirectUrl := none }) stateC6 1 "manual" =
      (.error .alreadyPaid, []) ∧
    initiatePayment (fun _ _ _ => { success := true, redirectUrl := none }) stateC6 2 "paypal" =
      (.error .orderNotFound, []) :=
  ⟨C6_initiatePayment_already_paid_guard.1 _ stateC6 1 orderPaidC6 "manual" (by decide) (by decide),
   C6_initiatePayment_already_paid_guard.2 _ stateC6 2 "paypal" (by decide)⟩

/-! ### Claim C8 -/

/-- Claim C8: a webhook delivery whose gateway name is unknown (not a key of
the strategies record) or whose signature fails `verifyWebhook` is
acknowledged with `received: false` without raising (the handler is total):
the store state is unchanged and no notification is dispatched. -/
theorem C8_rejected_webhook_acknowledged :
    ∀ (verify : String → WebhookPayload → String → Bool) (store : String → Nat → String)
      (s : OrdersState) (gateway : String) (p : WebhookPayload) (signature : String),
      (¬ gateway ∈ knownGateways ∨ verify gateway p signature = false) →
      handleWebhook verify store s gateway p signature =
        { received := false, state := s, events := [] } := by
  intro verify store s gw p sig h
  unfold handleWebhook
  by_cases hg : gw ∈ knownGateways
  · have hv : verify gw p sig = false := h.resolve_left (not_not_intro hg)
    simp [hg, hv]
  · simp [hg]

/-- A payload used to instantiate C8 (and, in other claims, the webhook
success path): an Onvopay checkout-session success for order 1. -/
def payloadC8 : WebhookPayload :=
  { eventType := some "checkout-session.succeeded", orderId := some 1
    dataStatus := none, paymentStatus := none, paymentIntentId := some "pi_1"
    dataId := none, errorMessage := none, denialReason := none }

theorem C8_rejected_webhook_acknowledged_witness :
    handleWebhook (fun _ _ _ => false) (fun u _ => u) stateC6 "onvopay" payloadC8 "bad" =
      { received := false, state := stateC6, events := [] } ∧
    handleWebhook (fun _ _ _ => true) (fun u _ => u) stateC6 "stripe" payloadC8 "sig" =
      { received := false, state := stateC6, events := [] } :=
  ⟨C8_rejected_webhook_acknowledged (fun _ _ _ => false) (fun u _ => u) stateC6 "onvopay" payloadC8
      "bad" (Or.inr rfl),
   C8_rejected_webhook_acknowledged (fun _ _ _ => true) (fun u _ => u) stateC6 "stripe" payloadC8
      "sig" (Or.inl (by decide))⟩

/-! ### Claim C10 -/

/-- Claim C10 (implicit): `updateStatus` — the admin AdvanceStatus path, also
driven by Telegram button callbacks — enforces no transition edges: on any
existing order and any target status it succeeds, overwrites the status with
the target unconditionally, and adjusts no stock; the only guarded edge is
`esperando_pago → pagada` inside the proof-review path
(`updatePaymentProof` with a verified decision). -/
theorem C10_updateStatus_enforces_no_edges :
    (∀ (s : OrdersState) (id : Nat) (o : Order) (st : Status),
      getA s.orders id = some o →
      (updateStatus s id st).res = .ok () ∧
      (∃ o', getA (updateStatus s id st).state.orders id = some o' ∧ o'.status = st) ∧
      (updateStatus s id st).state.variants = s.variants) ∧
    (∀ (store : String → Nat → String) (s : OrdersState) (id : Nat) (o : Order) (dto : ProofDto),
      getA s.orders id = some o → dto.status = some ReviewStatus.verified →
      ∃ o', getA (updatePaymentProof store s id dto).state.orders id = some o' ∧
        o'.status = (if o.status = Status.esperando_pago then Status.pagada else o.status)) := by
  constructor
  · intro s id o st ho
    rw [updateStatus_found st ho]
    refine ⟨rfl, ⟨statusSyncedOrder o st, getA_setA_self ho _, ?_⟩, rfl⟩
    unfold statusSyncedOrder
    split <;> rfl
  · intro store s id o dto ho hv
    rw [updatePaymentProof_found store dto ho]
    refine ⟨proofMergedOrder store id o dto, getA_setA_self ho _, ?_⟩
    simp [proofMergedOrder, hv]

/-- A cancelled order with a registered owner, in a state with one variant,
used to instantiate C10: `updateStatus` happily moves a cancelled order back
to `esperando_pago` without touching stock. -/
def orderCancelledC10 : Order :=
  { user := some 7, status := Status.cancelada, paymentProof := none
    trackingNumber := none, shippingProvider := none }

def stateC10 : OrdersState :=
  { variants := [(5, { stock := 3, price := some 100 })]
    orders := [(1, orderCancelledC10)], orderItems := [], users := [(7, 4)] }

theorem C10_updateStatus_enforces_no_edges_witness :
    ((updateStatus stateC10 1 Status.esperando_pago).res = .ok () ∧
      (∃ o', getA (updateStatus stateC10 1 Status.esperando_pago).state.orders 1 = some o' ∧
        o'.status = Status.esperando_pago) ∧
      (updateStatus stateC10 1 Status.esperando_pago).state.variants = stateC10.variants) ∧
    (∃ o', getA (updatePaymentProof (fun u _ => u) stateC10 1
        { url := none, type := none, reference := none
          status := some ReviewStatus.verified, reason := none }).state.orders 1 = some o' ∧
      o'.status = (if orderCancelledC10.status = Status.esperando_pago then Status.pagada
        else orderCancelledC10.status)) :=
  ⟨C10_updateStatus_enforces_no_edges.1 stateC10 1 orderCancelledC10 Status.esperando_pago (by decide),
   C10_updateStatus_enforces_no_edges.2 (fun u _ => u) stateC10 1 orderCancelledC10
      { url := none, type := none, reference := none
        status := some ReviewStatus.verified, reason := none } (by decide) rfl⟩

/-! ### Claim C5 -/

/-- A fully populated stored payment proof used to refute C5 as stated. -/
def proofC5 : PaymentProof :=
  { url := some "proofs/1.png", method := some "sinpe", reference := some "R-77"
    status := ReviewStatus.pending, reason := some "falta referencia" }

def orderC5 : Order :=
  { user := none, status := Status.esperando_pago, paymentProof := some proofC5
    trackingNumber := none, shippingProvider := none }

def stateC5 : OrdersState :=
  { variants := [], orders := [(1, orderC5)], orderItems := [], users := [] }

/-- The Telegram admin-approval DTO: it sets only the review status. -/
def dtoC5 : ProofDto :=
  { url := none, type := none, reference := none
    status := some ReviewStatus.verified, reason := none }

/-- Claim C5 is false as stated: an approval call that does not supply a
reason (`dtoC5.reason = none`) drops the previously recorded reason — the
stored proof had reason "falta referencia", and after the merge the reason
is `none`. -/
theorem C5_counterexample :
    dtoC5.reason = none ∧
    orderC5.paymentProof.bind PaymentProof.reason = some "falta referencia" ∧
    ((getA (updatePaymentProof (fun u _ => u) stateC5 1 dtoC5).state.orders 1).bind
        Order.paymentProof).bind PaymentProof.reason = none := by
  decide

/-- Claim C5 (amended): for every order with an existing paymentProof, each
of url, method, reference and review status keeps its previous value when
the call does not supply it; the reason also keeps its previous value when
not supplied — except when the same call sets review status `verified`, in
which case the reason is cleared. -/
theorem C5_proof_merge_preserves_unsupplied :
    ∀ (store : String → Nat → String) (s : OrdersState) (id : Nat) (o : Order)
      (cp : PaymentProof) (dto : ProofDto),
      getA s.orders id = some o → o.paymentProof = some cp →
      ∃ np : PaymentProof,
        (getA (updatePaymentProof store s id dto).state.orders id).bind Order.paymentProof =
          some np ∧
        (dto.url = none → np.url = cp.url) ∧
        (dto.type = none → np.method = cp.method) ∧
        (dto.reference = none → np.reference = cp.reference) ∧
        (dto.status = none → np.status = cp.status) ∧
        (dto.reason = none → dto.status ≠ some ReviewStatus.verified → np.reason = cp.reason) ∧
        (dto.reason = none → dto.status = some ReviewStatus.verified → np.reason = none) := by
  intro store s id o cp dto ho hcp
  rw [updatePaymentProof_found store dto ho]
  refine ⟨mergeProof store id o.paymentProof dto, ?_, ?_, ?_, ?_, ?_, ?_, ?_⟩
  · rw [getA_setA_self ho _]
    rfl
  · intro hu; simp [mergeProof, hu, hcp]
  · intro ht; simp [mergeProof, jsOr, ht, hcp]
  · intro hr; simp [mergeProof, jsOr, hr, hcp]
  · intro hs; simp [mergeProof, jsOr, hs, hcp]
  · intro hr hs; simp [mergeProof, jsOr, hr, hs, hcp]
  · intro hr hs; simp [mergeProof, jsOr, hr, hs, hcp]

theorem C5_proof_merge_preserves_unsupplied_witness :
    ∃ np : PaymentProof,
      (getA (updatePaymentProof (fun u _ => u) stateC5 1
          { url := none, type := none, reference := none, status := none
            reason := none }).state.orders 1).bind Order.paymentProof = some np ∧
      ((none : Option String) = none → np.url = proofC5.url) ∧
      ((none : Option String) = none → np.method = proofC5.method) ∧
      ((none : Option String) = none → np.reference = proofC5.reference) ∧
      ((none : Option ReviewStatus) = none → np.status = proofC5.status) ∧
      ((none : Option String) = none → (none : Option ReviewStatus) ≠ some ReviewStatus.verified →
        np.reason = proofC5.reason) ∧
      ((none : Option String) = none → (none : Option ReviewStatus) = some ReviewStatus.verified →
        np.reason = none) :=
  C5_proof_merge_preserves_unsupplied (fun u _ => u) stateC5 1 orderC5 proofC5
    { url := none, type := none, reference := none, status := none, reason := none }
    (by decide) rfl

/-! ### The Onvopay success path, characterized -/

/-- The DTO `handleWebhook` passes to `updatePaymentProof` on an Onvopay
success event carrying a reference id. -/
def onvoDto (p : WebhookPayload) : ProofDto :=
  { url := none, type := some "onvopay", reference := some (onvoSuccessId p)
    status := some ReviewStatus.verified, reason := none }

theorem handleWebhook_onvopay_success
    (verify : String → WebhookPayload → String → Bool) (store : String → Nat → String)
    {s : OrdersState} {oid : Nat} {o : Order} {p : WebhookPayload} {sig : String}
    (ho : getA s.orders oid = some o)
    (hv : verify "onvopay" p sig = true)
    (hoid : p.orderId = some oid)
    (hsucc : onvoIsSuccess p)
    (hid : onvoSuccessId p ≠ "") :
    handleWebhook verify store s "onvopay" p sig =
      { received := true
        state :=
          { s with
            orders :=
              setA s.orders oid
                (proofMergedOrder store oid (statusSyncedOrder o Status.pagada) (onvoDto p)) }
        events := [Event.paymentApproved oid] } := by
  have hknown : ¬ ¬ "onvopay" ∈ knownGateways := by decide
  unfold handleWebhook
  rw [if_neg hknown, hv]
  simp only [Bool.true_eq_false, if_false]
  rw [if_neg (by decide : ¬ ("onvopay" : String) = "paypal")]
  unfold handleOnvopayEvents
  rw [hoid]
  simp only [if_pos hsucc]
  rw [updateStatus_found Status.pagada ho]
  simp only [if_pos hid]
  have ho1 : getA (setA s.orders oid (statusSyncedOrder o Status.pagada)) oid =
      some (statusSyncedOrder o Status.pagada) := getA_setA_self ho _
  rw [updatePaymentProof_found store _ ho1]
  have husers :
      (if Status.pagada = o.status then s.users
       else if Status.pagada = Status.completada then
         match o.user with
         | some uid => bumpTokens s.users uid 5
         | none => s.users
       else s.users) = s.users := by
    split
    · rfl
    · rfl
  have hev : (if Status.pagada = o.status then [] else statusEvents oid Status.pagada) =
      ([] : List Event) := by
    split
    · rfl
    · rfl
  simp only [husers, hev, setA_setA]
  rfl

theorem handleWebhook_onvopay_success_noid
    (verify : String → WebhookPayload → String → Bool) (store : String → Nat → String)
    {s : OrdersState} {oid : Nat} {o : Order} {p : WebhookPayload} {sig : String}
    (ho : getA s.orders oid = some o)
    (hv : verify "onvopay" p sig = true)
    (hoid : p.orderId = some oid)
    (hsucc : onvoIsSuccess p)
    (hid : onvoSuccessId p = "") :
    handleWebhook verify store s "onvopay" p sig =
      { received := true
        state := { s with orders := setA s.orders oid (statusSyncedOrder o Status.pagada) }
        events := [] } := by
  have hknown : ¬ ¬ "onvopay" ∈ knownGateways := by decide
  unfold handleWebhook
  rw [if_neg hknown, hv]
  simp only [Bool.true_eq_false, if_false]
  rw [if_neg (by decide : ¬ ("onvopay" : String) = "paypal")]
  unfold handleOnvopayEvents
  rw [hoid]
  simp only [if_pos hsucc]
  rw [updateStatus_found Status.pagada ho]
  simp only [hid, ne_eq, not_true_eq_false, if_false]
  have husers :
      (if Status.pagada = o.status then s.users
       else if Status.pagada = Status.completada then
         match o.user with
         | some uid => bumpTokens s.users uid 5
         | none => s.users
       else s.users) = s.users := by
    split
    · rfl
    · rfl
  have hev : (if Status.pagada = o.status then [] else statusEvents oid Status.pagada) =
      ([] : List Event) := by
    split
    · rfl
    · rfl
  simp only [husers, hev]

/-! ### Claim C1 -/

/-- A shipped order (paid-or-later) used to refute C1 as stated. -/
def orderShippedC1 : Order :=
  { user := none, status := Status.enviada, paymentProof := none
    trackingNumber := some "TRK-1", shippingProvider := some "correos" }

def stateC1 : OrdersState :=
  { variants := [], orders := [(1, orderShippedC1)], orderItems := [], users := [] }

/-- A succeeded Onvopay payment event for order 1. -/
def payloadC1 : WebhookPayload :=
  { eventType := some "payment_intent.succeeded", orderId := some 1
    dataStatus := none, paymentStatus := none, paymentIntentId := some "pi_9"
    dataId := none, errorMessage := none, denialReason := none }

/-- Claim C1 is false as stated: the order is shipped (`enviada`, in the
paid-or-later set), yet handling a late succeeded payment webhook changes
its status — it is regressed to `pagada`. -/
theorem C1_counterexample :
    orderShippedC1.status ∈ paidStatuses ∧
    (getA (handleWebhook (fun _ _ _ => true) (fun u _ => u) stateC1 "onvopay" payloadC1
        "sig").state.orders 1).map Order.status = some Status.pagada ∧
    Status.pagada ≠ Status.enviada := by
  decide

/-- Claim C1 (amended): no reconciliation path ever moves an order back to
`esperando_pago`, and the duplicate admin proof-approval path never changes
a paid-or-later order's status at all; but the succeeded-webhook path sets
the status to `pagada` unconditionally, so an order beyond `pagada` (e.g.
`enviada`) is regressed to `pagada` by a late confirmation. -/
theorem C1_monotonicity_amended :
    (∀ (store : String → Nat → String) (s : OrdersState) (oid : Nat) (o : Order) (dto : ProofDto),
      getA s.orders oid = some o → o.status ∈ paidStatuses →
      dto.status = some ReviewStatus.verified →
      ∃ o', getA (updatePaymentProof store s oid dto).state.orders oid = some o' ∧
        o'.status = o.status) ∧
    (∀ (verify : String → WebhookPayload → String → Bool) (store : String → Nat → String)
        (s : OrdersState) (oid : Nat) (o : Order) (p : WebhookPayload) (sig : String),
      getA s.orders oid = some o → verify "onvopay" p sig = true →
      p.orderId = some oid → onvoIsSuccess p →
      ∃ o', getA (handleWebhook verify store s "onvopay" p sig).state.orders oid = some o' ∧
        o'.status = Status.pagada ∧ o'.status ≠ Status.esperando_pago) := by
  constructor
  · intro store s oid o dto ho hpaid hv
    have hne : ¬ o.status = Status.esperando_pago := by
      intro he
      rw [he] at hpaid
      simp [paidStatuses] at hpaid
    rw [updatePaymentProof_found store dto ho]
    refine ⟨proofMergedOrder store oid o dto, getA_setA_self ho _, ?_⟩
    simp [proofMergedOrder, hne]
  · intro verify store s oid o p sig ho hv hoid hsucc
    by_cases hid : onvoSuccessId p = ""
    · rw [handleWebhook_onvopay_success_noid verify store ho hv hoid hsucc hid]
      exact ⟨statusSyncedOrder o Status.pagada, getA_setA_self ho _,
        statusSyncedOrder_status o _, by rw [statusSyncedOrder_status]; decide⟩
    · rw [handleWebhook_onvopay_success verify store ho hv hoid hsucc hid]
      refine ⟨proofMergedOrder store oid (statusSyncedOrder o Status.pagada) (onvoDto p),
        getA_setA_self ho _, ?_, ?_⟩
      · simp [proofMergedOrder, onvoDto, statusSyncedOrder_status]
      · simp [proofMergedOrder, onvoDto, statusSyncedOrder_status]

theorem C1_monotonicity_amended_witness :
    (∃ o', getA (updatePaymentProof (fun u _ => u) stateC1 1 dtoC5).state.orders 1 = some o' ∧
      o'.status = orderShippedC1.status) ∧
    (∃ o', getA (handleWebhook (fun _ _ _ => true) (fun u _ => u) stateC1 "onvopay" payloadC1
        "sig").state.orders 1 = some o' ∧
      o'.status = Status.pagada ∧ o'.status ≠ Status.esperando_pago) :=
  ⟨C1_monotonicity_amended.1 (fun u _ => u) stateC1 1 orderShippedC1 dtoC5
      (by decide) (by decide) rfl,
   C1_monotonicity_amended.2 (fun _ _ _ => true) (fun u _ => u) stateC1 1 orderShippedC1 payloadC1
      "sig" (by decide) rfl rfl (by decide)⟩

/-! ### Claim C3 -/

/-- Token balance change of one `updateStatus` call for the order's
registered owner: +5 exactly when the call lands on `completada` from a
different previous status. -/
theorem updateStatus_tokens {s : OrdersState} {id : Nat} {o : Order} {uid : Nat} (st : Status)
    (ho : getA s.orders id = some o) (hu : o.user = some uid) :
    getA (updateStatus s id st).state.users uid =
      (if st = Status.completada ∧ o.status ≠ st then
        (getA s.users uid).map (fun t => t + 5)
      else getA s.users uid) := by
  rw [updateStatus_found st ho]
  by_cases hprev : st = o.status
  · have hcond : ¬ (st = Status.completada ∧ o.status ≠ st) := fun h => h.2 hprev.symm
    simp [hprev, hcond]
  · by_cases hc : st = Status.completada
    · have hcond : st = Status.completada ∧ o.status ≠ st := ⟨hc, fun hh => hprev hh.symm⟩
      rw [if_pos hcond]
      simp only [if_neg hprev, if_pos hc, hu]
      exact getA_bumpTokens_eq s.users uid 5
    · have hcond : ¬ (st = Status.completada ∧ o.status ≠ st) := fun h => hc h.1
      simp [hprev, hc, hcond]

/-- An order with a registered owner (user 7, starting at 4 tokens), already
paid, used to refute C3 as stated. -/
def orderOwnedC3 : Order :=
  { user := some 7, status := Status.pagada, paymentProof := none
    trackingNumber := none, shippingProvider := none }

def stateC3 : OrdersState :=
  { variants := [], orders := [(1, orderOwnedC3)], orderItems := [], users := [(7, 4)] }

/-- Claim C3 is false as stated: over the AdvanceStatus sequence
`completada, enviada, completada` the owner's balance rises by 10 (two
grants of 5), not at most once. -/
theorem C3_counterexample :
    getA stateC3.users 7 = some 4 ∧
    getA ((updateStatus ((updateStatus ((updateStatus stateC3 1
        Status.completada).state) 1 Status.enviada).state) 1
        Status.completada).state).users 7 = some 14 := by
  decide

/-- Claim C3 (amended): `updateStatus` grants the fixed +5 loyalty credit to
the registered owner exactly when it sets `completada` and the previous
status differs; in particular calling `completada` again immediately after
does not re-grant (the two-call sequence grants exactly once), but a
sequence that leaves `completada` and re-enters it grants again. -/
theorem C3_loyalty_grant_amended :
    (∀ (s : OrdersState) (id : Nat) (o : Order) (uid : Nat) (st : Status),
      getA s.orders id = some o → o.user = some uid →
      getA (updateStatus s id st).state.users uid =
        (if st = Status.completada ∧ o.status ≠ st then
          (getA s.users uid).map (fun t => t + 5)
        else getA s.users uid)) ∧
    (∀ (s : OrdersState) (id : Nat) (o : Order) (uid : Nat),
      getA s.orders id = some o → o.user = some uid → o.status ≠ Status.completada →
      getA ((updateStatus ((updateStatus s id Status.completada).state) id
          Status.completada).state).users uid =
        (getA s.users uid).map (fun t => t + 5)) := by
  constructor
  · intro s id o uid st ho hu
    exact updateStatus_tokens st ho hu
  · intro s id o uid ho hu hne
    have h1 : getA ((updateStatus s id Status.completada).state).users uid =
        (getA s.users uid).map (fun t => t + 5) := by
      rw [updateStatus_tokens Status.completada ho hu, if_pos ⟨rfl, fun hh => hne hh⟩]
    have ho1 : getA ((updateStatus s id Status.completada).state).orders id =
        some (statusSyncedOrder o Status.completada) := by
      rw [updateStatus_found Status.completada ho]
      exact getA_setA_self ho _
    have hu1 : (statusSyncedOrder o Status.completada).user = some uid := by
      rw [statusSyncedOrder_user]; exact hu
    rw [updateStatus_tokens Status.completada ho1 hu1]
    rw [if_neg (by simp [statusSyncedOrder_status])]
    exact h1

theorem C3_loyalty_grant_amended_witness :
    (getA (updateStatus stateC3 1 Status.completada).state.users 7 =
      (if Status.completada = Status.completada ∧ orderOwnedC3.status ≠ Status.completada then
        (getA stateC3.users 7).map (fun t => t + 5)
      else getA stateC3.users 7)) ∧
    (getA ((updateStatus ((updateStatus stateC3 1 Status.completada).state) 1
        Status.completada).state).users 7 =
      (getA stateC3.users 7).map (fun t => t + 5)) :=
  ⟨C3_loyalty_grant_amended.1 stateC3 1 orderOwnedC3 7 Status.completada (by decide) rfl,
   C3_loyalty_grant_amended.2 stateC3 1 orderOwnedC3 7 (by decide) rfl (by decide)⟩

/-! ### Create: validation and state decomposition lemmas -/

theorem create_error {s : OrdersState} {items : List CreateItem} {e : OrderError}
    (newId : Nat) (user : Option Nat) (ot : OrderType)
    (h : validateItems s.variants items = .error e) :
    create s newId items user ot = { res := .error e, state := s, events := [] } := by
  unfold create
  rw [h]

theorem foldl_createStep (newId : Nat) (l : List ItemData) (st : OrdersState) :
    l.foldl (fun st d =>
      { st with
        orderItems := st.orderItems ++ [itemRec newId d]
        variants := incStock st.variants d.variantId (-d.quantity) }) st =
      { st with
        orderItems := st.orderItems ++ l.map (itemRec newId)
        variants := l.foldl (fun a d => incStock a d.variantId (-d.quantity)) st.variants } := by
  induction l generalizing st with
  | nil => simp
  | cons d l ih =>
    rw [List.foldl_cons, ih, List.foldl_cons]
    simp

theorem create_ok_eq {s : OrdersState} {items : List CreateItem} {l : List ItemData}
    (newId : Nat) (user : Option Nat) (ot : OrderType)
    (h : validateItems s.variants items = .ok l) :
    create s newId items user ot =
      { res := .ok newId
        state :=
          { variants := l.foldl (fun a d => incStock a d.variantId (-d.quantity)) s.variants
            orders := s.orders ++ [(newId, newOrderDoc user ot)]
            orderItems := s.orderItems ++ l.map (itemRec newId)
            users := s.users }
        events := [Event.orderCreated newId] } := by
  unfold create
  rw [h]
  simp only [foldl_createStep]

theorem validateItems_ok_spec {vs : List (Nat × Variant)} {items : List CreateItem}
    {l : List ItemData} (h : validateItems vs items = .ok l) :
    l.map (fun d => (d.variantId, d.quantity)) =
      items.map (fun it => (it.variantId, it.quantity)) ∧
    ∀ d ∈ l, ∃ v, getA vs d.variantId = some v ∧ ¬ v.stock < d.quantity := by
  induction items generalizing l with
  | nil =>
    simp only [validateItems] at h
    cases h
    simp
  | cons it rest ih =>
    simp only [validateItems] at h
    split at h
    · simp at h
    next v hv =>
      split at h
      · simp at h
      next hs =>
        split at h
        · simp at h
        next p hp =>
          split at h
          · simp at h
          next l' hrest =>
            simp only [Except.ok.injEq] at h
            obtain ⟨hpairs, hmem⟩ := ih hrest
            subst h
            refine ⟨by simp [hpairs], ?_⟩
            intro d hd
            rcases List.mem_cons.mp hd with hd | hd
            · subst hd
              exact ⟨v, hv, hs⟩
            · exact hmem d hd

theorem pairs_mem {l : List ItemData} {items : List CreateItem}
    (hpairs : l.map (fun d => (d.variantId, d.quantity)) =
      items.map (fun it => (it.variantId, it.quantity)))
    {d : ItemData} (hd : d ∈ l) :
    ∃ it ∈ items, it.variantId = d.variantId ∧ it.quantity = d.quantity := by
  have hm : (d.variantId, d.quantity) ∈ items.map (fun it => (it.variantId, it.quantity)) := by
    rw [← hpairs]
    exact List.mem_map_of_mem _ hd
  obtain ⟨it, hmem, heq⟩ := List.mem_map.mp hm
  simp only [Prod.mk.injEq] at heq
  exact ⟨it, hmem, heq.1, heq.2⟩

theorem pairs_vids {l : List ItemData} {items : List CreateItem}
    (hpairs : l.map (fun d => (d.variantId, d.quantity)) =
      items.map (fun it => (it.variantId, it.quantity))) :
    l.map ItemData.variantId = items.map CreateItem.variantId := by
  have h1 : (l.map (fun d => (d.variantId, d.quantity))).map Prod.fst =
      l.map ItemData.variantId := by
    rw [List.map_map]
    rfl
  have h2 : (items.map (fun it => (it.variantId, it.quantity))).map Prod.fst =
      items.map CreateItem.variantId := by
    rw [List.map_map]
    rfl
  rw [← h1, ← h2, hpairs]

theorem sumAmt_neg {α : Type} (key : α → Nat) (amt : α → Int) (j : Nat) (l : List α) :
    sumAmt key (fun d => -(amt d)) j l = -(sumAmt key amt j l) := by
  induction l with
  | nil => simp [sumAmt]
  | cons d l ih =>
    by_cases hk : key d = j
    · simp [sumAmt, hk, ih]
      ring
    · simp [sumAmt, hk, ih]

theorem validateItems_ok_of_valid (vs : List (Nat × Variant)) (items : List CreateItem)
    (hAll : ∀ it ∈ items, ∃ v, getA vs it.variantId = some v ∧
      v.price ≠ none ∧ ¬ v.stock < it.quantity) :
    ∃ l, validateItems vs items = .ok l := by
  induction items with
  | nil => exact ⟨[], rfl⟩
  | cons it rest ih =>
    obtain ⟨v, hv, hp, hs⟩ := hAll it (by simp)
    obtain ⟨l, hl⟩ := ih (fun it' h' => hAll it' (by simp [h']))
    obtain ⟨p, hp'⟩ := Option.ne_none_iff_exists'.mp hp
    exact ⟨{ variantId := it.variantId, quantity := it.quantity, unitPrice := p } :: l,
      by simp [validateItems, hv, hs, hp', hl]⟩

theorem validateItems_insufficient (vs : List (Nat × Variant)) (items : List CreateItem)
    (hAll : ∀ it ∈ items, ∃ v, getA vs it.variantId = some v ∧ v.price ≠ none)
    (hEx : ∃ it ∈ items, ∃ v, getA vs it.variantId = some v ∧ v.stock < it.quantity) :
    ∃ j, validateItems vs items = .error (.insufficientStock j) := by
  induction items with
  | nil => simp at hEx
  | cons it rest ih =>
    obtain ⟨v, hv, hp⟩ := hAll it (by simp)
    by_cases hs : v.stock < it.quantity
    · exact ⟨it.variantId, by simp [validateItems, hv, hs]⟩
    · have hEx' : ∃ it' ∈ rest, ∃ v, getA vs it'.variantId = some v ∧ v.stock < it'.quantity := by
        obtain ⟨it', hmem, v', hv', hs'⟩ := hEx
        rcases List.mem_cons.mp hmem with hh | hh
        · subst hh
          rw [hv] at hv'
          cases hv'
          exact absurd hs' hs
        · exact ⟨it', hh, v', hv', hs'⟩
      obtain ⟨j, hj⟩ := ih (fun it' h' => hAll it' (by simp [h'])) hEx'
      obtain ⟨p, hp'⟩ := Option.ne_none_iff_exists'.mp hp
      exact ⟨j, by simp [validateItems, hv, hs, hp', hj]⟩

theorem validateItems_insufficient_inv (vs : List (Nat × Variant)) (items : List CreateItem)
    (j : Nat) (h : validateItems vs items = .error (.insufficientStock j)) :
    ∃ it ∈ items, ∃ v, getA vs it.variantId = some v ∧ v.stock < it.quantity := by
  induction items with
  | nil => simp [validateItems] at h
  | cons it rest ih =>
    simp only [validateItems] at h
    split at h
    · simp at h
    next v hv =>
      split at h
      next hs => exact ⟨it, by simp, v, hv, hs⟩
      next hs =>
        split at h
        · simp at h
        next p hp =>
          split at h
          next e hrest =>
            simp only [Except.error.injEq] at h
            subst h
            obtain ⟨it', hmem, w, hw⟩ := ih hrest
            exact ⟨it', by simp [hmem], w, hw⟩
          · simp at h

theorem validateItems_price_missing (vs : List (Nat × Variant)) (items : List CreateItem)
    (hAll : ∀ it ∈ items, ∃ v, getA vs it.variantId = some v ∧ ¬ v.stock < it.quantity)
    (hEx : ∃ it ∈ items, ∃ v, getA vs it.variantId = some v ∧ v.price = none) :
    ∃ j, validateItems vs items = .error (.priceNotFound j) := by
  induction items with
  | nil => simp at hEx
  | cons it rest ih =>
    obtain ⟨v, hv, hs⟩ := hAll it (by simp)
    cases hp : v.price with
    | none => exact ⟨it.variantId, by simp [validateItems, hv, hs, hp]⟩
    | some p =>
      have hEx' : ∃ it' ∈ rest, ∃ v, getA vs it'.variantId = some v ∧ v.price = none := by
        obtain ⟨it', hmem, v', hv', hp'⟩ := hEx
        rcases List.mem_cons.mp hmem with hh | hh
        · subst hh
          rw [hv] at hv'
          cases hv'
          rw [hp] at hp'
          cases hp'
        · exact ⟨it', hh, v', hv', hp'⟩
      obtain ⟨j, hj⟩ := ih (fun it' h' => hAll it' (by simp [h'])) hEx'
      exact ⟨j, by simp [validateItems, hv, hs, hp, hj]⟩

/-! ### Claim C7 -/

/-- Claim C7: assuming every requested line's variant exists and carries a
catalog price, `create` fails with the insufficient-stock error exactly when
some line's quantity strictly exceeds that variant's current stock — a
request for at most (in particular exactly) the available stock passes the
stock check and succeeds; when every line is within stock and some line's
catalog entry lacks a numeric price, `create` fails with the
price-unavailable error; and on any validation failure nothing is persisted:
the state is unchanged and no event is dispatched. -/
theorem C7_create_failure_semantics :
    (∀ (s : OrdersState) (newId : Nat) (items : List CreateItem)
        (user : Option Nat) (ot : OrderType),
      (∀ it ∈ items, ∃ v, getA s.variants it.variantId = some v ∧ v.price ≠ none) →
      ((∃ it ∈ items, ∃ v, getA s.variants it.variantId = some v ∧ v.stock < it.quantity) ↔
        ∃ j, (create s newId items user ot).res = .error (.insufficientStock j))) ∧
    (∀ (s : OrdersState) (newId : Nat) (items : List CreateItem)
        (user : Option Nat) (ot : OrderType),
      (∀ it ∈ items, ∃ v, getA s.variants it.variantId = some v ∧
        v.price ≠ none ∧ ¬ v.stock < it.quantity) →
      (create s newId items user ot).res = .ok newId) ∧
    (∀ (s : OrdersState) (newId : Nat) (items : List CreateItem)
        (user : Option Nat) (ot : OrderType),
      (∀ it ∈ items, ∃ v, getA s.variants it.variantId = some v ∧ ¬ v.stock < it.quantity) →
      (∃ it ∈ items, ∃ v, getA s.variants it.variantId = some v ∧ v.price = none) →
      ∃ j, (create s newId items user ot).res = .error (.priceNotFound j)) ∧
    (∀ (s : OrdersState) (newId : Nat) (items : List CreateItem)
        (user : Option Nat) (ot : OrderType) (e : OrderError),
      (create s newId items user ot).res = .error e →
      (create s newId items user ot).state = s ∧
        (create s newId items user ot).events = []) := by
  refine ⟨?_, ?_, ?_, ?_⟩
  · intro s newId items user ot hAll
    constructor
    · intro hEx
      obtain ⟨j, hj⟩ := validateItems_insufficient s.variants items hAll hEx
      exact ⟨j, by rw [create_error newId user ot hj]⟩
    · rintro ⟨j, hj⟩
      cases hval : validateItems s.variants items with
      | error e =>
        rw [create_error newId user ot hval] at hj
        simp only [Except.error.injEq] at hj
        subst hj
        exact validateItems_insufficient_inv s.variants items j hval
      | ok l =>
        rw [create_ok_eq newId user ot hval] at hj
        simp at hj
  · intro s newId items user ot hAll
    obtain ⟨l, hl⟩ := validateItems_ok_of_valid s.variants items hAll
    rw [create_ok_eq newId user ot hl]
  · intro s newId items user ot hAll hEx
    obtain ⟨j, hj⟩ := validateItems_price_missing s.variants items hAll hEx
    exact ⟨j, by rw [create_error newId user ot hj]⟩
  · intro s newId items user ot e he
    cases hval : validateItems s.variants items with
    | error e' => rw [create_error newId user ot hval]; exact ⟨rfl, rfl⟩
    | ok l =>
      rw [create_ok_eq newId user ot hval] at he
      simp at he

/-- A one-variant catalog (variant 4: stock 2, price 500; variant 6: in
stock but no catalog price) used to instantiate C7. -/
def stateC7 : OrdersState :=
  { variants := [(4, { stock := 2, price := some 500 }), (6, { stock := 9, price := none })]
    orders := [], orderItems := [], users := [] }

theorem C7_create_failure_semantics_witness :
    ((∃ it ∈ [CreateItem.mk 4 3], ∃ v, getA stateC7.variants it.variantId = some v ∧
        v.stock < it.quantity) ↔
      ∃ j, (create stateC7 10 [CreateItem.mk 4 3] none OrderType.online).res =
        .error (.insufficientStock j)) ∧
    (create stateC7 10 [CreateItem.mk 4 2] none OrderType.online).res = .ok 10 ∧
    (∃ j, (create stateC7 10 [CreateItem.mk 6 1] none OrderType.online).res =
      .error (.priceNotFound j)) ∧
    ((create stateC7 10 [CreateItem.mk 4 3] none OrderType.online).state = stateC7 ∧
      (create stateC7 10 [CreateItem.mk 4 3] none OrderType.online).events = []) :=
  ⟨C7_create_failure_semantics.1 stateC7 10 [CreateItem.mk 4 3] none OrderType.online
      (by decide),
   C7_create_failure_semantics.2.1 stateC7 10 [CreateItem.mk 4 2] none OrderType.online
      (by decide),
   C7_create_failure_semantics.2.2.1 stateC7 10 [CreateItem.mk 6 1] none OrderType.online
      (by decide) (by decide),
   C7_create_failure_semantics.2.2.2 stateC7 10 [CreateItem.mk 4 3] none OrderType.online
      (.insufficientStock 4) (by decide)⟩

/-! ### Claim C4 -/

/-- A catalog with a single variant (id 1, stock 2), used to refute C4 as
stated. -/
def stateC4 : OrdersState :=
  { variants := [(1, { stock := 2, price := some 100 })]
    orders := [], orderItems := [], users := [] }

/-- Claim C4 is false as stated: a single CreateOrder whose two item lines
reference the same variant passes validation (each line is checked against
the same pre-debit stock of 2) and succeeds, driving the stock to -2. -/
theorem C4_counterexample :
    getA stateC4.variants 1 = some { stock := 2, price := some 100 } ∧
    (create stateC4 10 [CreateItem.mk 1 2, CreateItem.mk 1 2] none OrderType.online).res =
      .ok 10 ∧
    getA (create stateC4 10 [CreateItem.mk 1 2, CreateItem.mk 1 2] none
      OrderType.online).state.variants 1 = some { stock := -2, price := some 100 } := by
  decide

/-- Claim C4 (amended): stock non-negativity is preserved by `create` only
when the request's item lines reference pairwise distinct variants (and
quantities are non-negative, as the DTO intends); with a duplicated variant
line a single request can drive stock negative, because each line is
validated against the same pre-debit stock.  `cancelOrder` (a pure credit)
always preserves non-negativity. -/
theorem C4_stock_nonneg_amended :
    (∀ (s : OrdersState) (newId : Nat) (items : List CreateItem)
        (user : Option Nat) (ot : OrderType),
      (∀ j v, getA s.variants j = some v → 0 ≤ v.stock) →
      (items.map CreateItem.variantId).Nodup →
      (∀ it ∈ items, 0 ≤ it.quantity) →
      ∀ j v, getA (create s newId items user ot).state.variants j = some v → 0 ≤ v.stock) ∧
    (∀ (s : OrdersState) (id : Nat),
      (∀ j v, getA s.variants j = some v → 0 ≤ v.stock) →
      (∀ it ∈ s.orderItems, 0 ≤ it.quantity) →
      ∀ j v, getA (cancelOrder s id).state.variants j = some v → 0 ≤ v.stock) := by
  constructor
  · intro s newId items user ot hnn hnd hq j v hget
    cases hval : validateItems s.variants items with
    | error e =>
      rw [create_error newId user ot hval] at hget
      exact hnn j v hget
    | ok l =>
      obtain ⟨hpairs, hmem⟩ := validateItems_ok_spec hval
      rw [create_ok_eq newId user ot hval] at hget
      have hget' : getA (l.foldl (fun a d => incStock a d.variantId (-d.quantity)) s.variants)
          j = some v := hget
      rw [getA_foldl_incStock ItemData.variantId (fun d => -d.quantity) l s.variants j] at hget'
      cases hg : getA s.variants j with
      | none => rw [hg] at hget'; simp at hget'
      | some v0 =>
        rw [hg] at hget'
        simp only [Option.map_some', Option.some.injEq] at hget'
        subst hget'
        show 0 ≤ v0.stock + sumAmt ItemData.variantId (fun d => -d.quantity) j l
        rw [sumAmt_neg ItemData.variantId ItemData.quantity j l]
        have hQ : sumAmt ItemData.variantId ItemData.quantity j l ≤ v0.stock := by
          refine sumAmt_le_of_nodup ItemData.variantId ItemData.quantity j l v0.stock
            ?_ (hnn j v0 hg) ?_ ?_
          · rw [pairs_vids hpairs]
            exact hnd
          · intro d hd hkey
            obtain ⟨v', hv', hs'⟩ := hmem d hd
            rw [hkey, hg] at hv'
            cases hv'
            omega
          · intro d hd
            obtain ⟨it, hit, _, hq'⟩ := pairs_mem hpairs hd
            have := hq it hit
            omega
        omega
  · intro s id hnn hq j v hget
    unfold cancelOrder at hget
    split at hget
    · exact hnn j v hget
    next o hgo =>
      split at hget
      · exact hnn j v hget
      next hc =>
        have hget' : getA ((s.orderItems.filter (fun it => it.orderId = id)).foldl
            (fun vs it => incStock vs it.variantId it.quantity) s.variants) j = some v := hget
        rw [getA_foldl_incStock OrderItemRec.variantId OrderItemRec.quantity _ s.variants j]
          at hget'
        cases hg : getA s.variants j with
        | none => rw [hg] at hget'; simp at hget'
        | some v0 =>
          rw [hg] at hget'
          simp only [Option.map_some', Option.some.injEq] at hget'
          subst hget'
          show 0 ≤ v0.stock +
            sumAmt OrderItemRec.variantId OrderItemRec.quantity j
              (s.orderItems.filter (fun it => it.orderId = id))
          have hS : 0 ≤ sumAmt OrderItemRec.variantId OrderItemRec.quantity j
              (s.orderItems.filter (fun it => it.orderId = id)) := by
            refine sumAmt_nonneg _ _ _ _ (fun d hd => ?_)
            exact hq d (List.mem_filter.mp hd).1
          have := hnn j v0 hg
          omega

theorem C4_stock_nonneg_amended_witness :
    ((getA stateC4.variants 0 = some { stock := 2, price := some 100 } →
        (0 : Int) ≤ 2) ∧
      ∀ j v, getA (create stateC4 10 [CreateItem.mk 1 2] none OrderType.online).state.variants
        j = some v → 0 ≤ v.stock) ∧
    (∀ j v, getA (cancelOrder stateC4 3).state.variants j = some v → 0 ≤ v.stock) := by
  refine ⟨⟨fun _ => by omega, ?_⟩, ?_⟩
  · refine C4_stock_nonneg_amended.1 stateC4 10 [CreateItem.mk 1 2] none OrderType.online
      ?_ (by decide) (by decide)
    intro j v h
    cases j with
    | zero => simp [stateC4, getA] at h
    | succ n =>
      cases n with
      | zero =>
        simp [stateC4, getA] at h
        rw [← h]
        decide
      | succ m => simp [stateC4, getA] at h
  · refine C4_stock_nonneg_amended.2 stateC4 3 ?_ (by decide)
    intro j v h
    cases j with
    | zero => simp [stateC4, getA] at h
    | succ n =>
      cases n with
      | zero =>
        simp [stateC4, getA] at h
        rw [← h]
        decide
      | succ m => simp [stateC4, getA] at h

/-! ### Claim C9 -/

theorem cancelOrder_found {s : OrdersState} {id : Nat} {o : Order}
    (ho : getA s.orders id = some o) (hnc : ¬ o.status = Status.cancelada) :
    cancelOrder s id =
      { res := .ok ()
        state := { s with
          variants := (s.orderItems.filter (fun it => it.orderId = id)).foldl
            (fun vs it => incStock vs it.variantId it.quantity) s.variants
          orders := setA s.orders id { o with status := Status.cancelada } }
        events := [] } := by
  unfold cancelOrder
  rw [ho]
  simp [hnc]

/-- Claim C9: cancelling an order produced by a successful `create` (with a
fresh order id) credits back exactly what was debited: every variant's stock
returns to its pre-create value, and the order's status becomes
`cancelada`. -/
theorem C9_create_cancel_roundtrip :
    ∀ (s : OrdersState) (newId : Nat) (items : List CreateItem)
      (user : Option Nat) (ot : OrderType),
      (create s newId items user ot).res = .ok newId →
      getA s.orders newId = none →
      (∀ it ∈ s.orderItems, it.orderId ≠ newId) →
      (cancelOrder (create s newId items user ot).state newId).res = .ok () ∧
      (∀ j, getA (cancelOrder (create s newId items user ot).state newId).state.variants j =
        getA s.variants j) ∧
      (∃ o', getA (cancelOrder (create s newId items user ot).state newId).state.orders newId =
        some o' ∧ o'.status = Status.cancelada) := by
  intro s newId items user ot hres hfresh hfreshItems
  cases hval : validateItems s.variants items with
  | error e =>
    rw [create_error newId user ot hval] at hres
    simp at hres
  | ok l =>
    rw [create_ok_eq newId user ot hval]
    have hgo : getA (s.orders ++ [(newId, newOrderDoc user ot)]) newId =
        some (newOrderDoc user ot) := by
      rw [getA_append_left hfresh]
      simp [getA]
    have hnc : ¬ (newOrderDoc user ot).status = Status.cancelada := by
      cases ot <;> simp [newOrderDoc]
    rw [cancelOrder_found hgo hnc]
    have hfilter : (s.orderItems ++ l.map (itemRec newId)).filter
        (fun it => it.orderId = newId) = l.map (itemRec newId) := by
      rw [List.filter_append]
      have h1 : s.orderItems.filter (fun it => it.orderId = newId) = [] := by
        rw [List.filter_eq_nil_iff]
        intro a ha
        simp [hfreshItems a ha]
      have h2 : (l.map (itemRec newId)).filter (fun it => it.orderId = newId) =
          l.map (itemRec newId) := by
        rw [List.filter_eq_self]
        intro a ha
        obtain ⟨d, hd, rfl⟩ := List.mem_map.mp ha
        simp [itemRec]
      rw [h1, h2, List.nil_append]
    refine ⟨rfl, ?_, ?_⟩
    · intro j
      show getA (((s.orderItems ++ l.map (itemRec newId)).filter
          (fun it => it.orderId = newId)).foldl
          (fun vs it => incStock vs it.variantId it.quantity)
          (l.foldl (fun a d => incStock a d.variantId (-d.quantity)) s.variants)) j =
        getA s.variants j
      rw [hfilter]
      rw [getA_foldl_incStock OrderItemRec.variantId OrderItemRec.quantity]
      rw [getA_foldl_incStock ItemData.variantId (fun d => -d.quantity)]
      rw [sumAmt_map OrderItemRec.variantId OrderItemRec.quantity (itemRec newId) j l]
      simp only [itemRec]
      cases getA s.variants j with
      | none => rfl
      | some v0 =>
        simp only [Option.map_some']
        rw [sumAmt_neg ItemData.variantId ItemData.quantity j l]
        simp [neg_add_cancel_right]
    · refine ⟨{ newOrderDoc user ot with status := Status.cancelada }, ?_, rfl⟩
      show getA (setA (s.orders ++ [(newId, newOrderDoc user ot)]) newId
        { newOrderDoc user ot with status := Status.cancelada }) newId = _
      exact getA_setA_self hgo _

/-- A two-variant catalog used to instantiate C9. -/
def stateC9 : OrdersState :=
  { variants := [(1, { stock := 5, price := some 100 }), (2, { stock := 3, price := some 50 })]
    orders := [], orderItems := [], users := [] }

theorem C9_create_cancel_roundtrip_witness :
    (cancelOrder (create stateC9 10 [CreateItem.mk 1 2, CreateItem.mk 2 3] none
      OrderType.online).state 10).res = .ok () ∧
    (∀ j, getA (cancelOrder (create stateC9 10 [CreateItem.mk 1 2, CreateItem.mk 2 3] none
      OrderType.online).state 10).state.variants j = getA stateC9.variants j) ∧
    (∃ o', getA (cancelOrder (create stateC9 10 [CreateItem.mk 1 2, CreateItem.mk 2 3] none
      OrderType.online).state 10).state.orders 10 = some o' ∧ o'.status = Status.cancelada) :=
  C9_create_cancel_roundtrip stateC9 10 [CreateItem.mk 1 2, CreateItem.mk 2 3] none
    OrderType.online (by decide) (by decide) (by decide)

/-! ### Claim C2 -/

/-- Replaying the webhook-success order transformation is idempotent on the
order document: merging the same verified Onvopay proof over its own result
changes nothing. -/
theorem successOrder_idem (store : String → Nat → String) (oid : Nat) (o : Order)
    (p : WebhookPayload) :
    proofMergedOrder store oid
      (statusSyncedOrder
        (proofMergedOrder store oid (statusSyncedOrder o Status.pagada) (onvoDto p))
        Status.pagada)
      (onvoDto p) =
    proofMergedOrder store oid (statusSyncedOrder o Status.pagada) (onvoDto p) := by
  obtain ⟨u, st, pp, tn, sp⟩ := o
  cases pp with
  | none =>
    simp [proofMergedOrder, statusSyncedOrder, mergeProof, onvoDto, jsOr, paidStatuses]
  | some q =>
    obtain ⟨qu, qm, qr, qs, qn⟩ := q
    cases qs <;>
      simp [proofMergedOrder, statusSyncedOrder, mergeProof, onvoDto, jsOr, paidStatuses]

/-- An awaiting-payment order with a registered owner, and a succeeded
Onvopay event for it, used to refute C2 as stated. -/
def orderAwaitingC2 : Order :=
  { user := some 7, status := Status.esperando_pago, paymentProof := none
    trackingNumber := none, shippingProvider := none }

def stateC2 : OrdersState :=
  { variants := [], orders := [(1, orderAwaitingC2)], orderItems := [], users := [(7, 4)] }

def payloadC2 : WebhookPayload :=
  { eventType := some "checkout-session.succeeded", orderId := some 1
    dataStatus := none, paymentStatus := some "paid", paymentIntentId := some "pi_42"
    dataId := none, errorMessage := none, denialReason := none }

/-- Claim C2 is false as stated: delivering the same succeeded webhook twice
dispatches the `payment.approved` notification on each delivery — twice in
total, not at most once (`updatePaymentProof` notifies whenever the DTO
carries a verified decision, with no dedupe). -/
theorem C2_counterexample :
    (handleWebhook (fun _ _ _ => true) (fun u _ => u) stateC2 "onvopay" payloadC2
      "sig").events = [Event.paymentApproved 1] ∧
    (handleWebhook (fun _ _ _ => true) (fun u _ => u)
      (handleWebhook (fun _ _ _ => true) (fun u _ => u) stateC2 "onvopay" payloadC2
        "sig").state "onvopay" payloadC2 "sig").events = [Event.paymentApproved 1] := by
  decide

/-- Claim C2 (amended): replaying an identical succeeded Onvopay webhook
(carrying a transaction reference) is idempotent on the store state — the
second delivery leaves the state exactly as after the first — and the
webhook path never grants loyalty tokens at all; but the `payment.approved`
notification is dispatched once per delivery, hence twice across the two
deliveries rather than at most once. -/
theorem C2_webhook_replay_amended :
    ∀ (verify : String → WebhookPayload → String → Bool) (store : String → Nat → String)
      (s : OrdersState) (oid : Nat) (o : Order) (p : WebhookPayload) (sig : String),
      getA s.orders oid = some o →
      verify "onvopay" p sig = true →
      p.orderId = some oid →
      onvoIsSuccess p →
      onvoSuccessId p ≠ "" →
      (handleWebhook verify store (handleWebhook verify store s "onvopay" p sig).state
          "onvopay" p sig).state =
        (handleWebhook verify store s "onvopay" p sig).state ∧
      (handleWebhook verify store s "onvopay" p sig).state.users = s.users ∧
      (handleWebhook verify store s "onvopay" p sig).events = [Event.paymentApproved oid] ∧
      (handleWebhook verify store (handleWebhook verify store s "onvopay" p sig).state
          "onvopay" p sig).events = [Event.paymentApproved oid] := by
  intro verify store s oid o p sig ho hv hoid hsucc hid
  have h1 := handleWebhook_onvopay_success verify store ho hv hoid hsucc hid
  have ho1 : getA ({ s with
        orders :=
          setA s.orders oid
            (proofMergedOrder store oid (statusSyncedOrder o Status.pagada) (onvoDto p))
      } : OrdersState).orders oid =
      some (proofMergedOrder store oid (statusSyncedOrder o Status.pagada) (onvoDto p)) :=
    getA_setA_self ho _
  have h2 := handleWebhook_onvopay_success verify store ho1 hv hoid hsucc hid
  refine ⟨?_, ?_, ?_, ?_⟩
  · rw [h1]
    dsimp only
    rw [h2]
    dsimp only
    rw [successOrder_idem store oid o p, setA_setA]
  · rw [h1]
  · rw [h1]
  · rw [h1]
    dsimp only
    rw [h2]

theorem C2_webhook_replay_amended_witness :
    (handleWebhook (fun _ _ _ => true) (fun u _ => u)
        (handleWebhook (fun _ _ _ => true) (fun u _ => u) stateC2 "onvopay" payloadC2
          "sig").state "onvopay" payloadC2 "sig").state =
      (handleWebhook (fun _ _ _ => true) (fun u _ => u) stateC2 "onvopay" payloadC2
        "sig").state ∧
    (handleWebhook (fun _ _ _ => true) (fun u _ => u) stateC2 "onvopay" payloadC2
      "sig").state.users = stateC2.users ∧
    (handleWebhook (fun _ _ _ => true) (fun u _ => u) stateC2 "onvopay" payloadC2
      "sig").events = [Event.paymentApproved 1] ∧
    (handleWebhook (fun _ _ _ => true) (fun u _ => u)
        (handleWebhook (fun _ _ _ => true) (fun u _ => u) stateC2 "onvopay" payloadC2
          "sig").state "onvopay" payloadC2 "sig").events = [Event.paymentApproved 1] :=
  C2_webhook_replay_amended (fun _ _ _ => true) (fun u _ => u) stateC2 1 orderAwaitingC2
    payloadC2 "sig" (by decide) rfl rfl (by decide) (by decide)

end Zayrel
